import Mathlib

/-!
# Shallow embedding of the email-security-agent risk pipeline

This file embeds, in Lean, the claim-relevant parts of the repository:

* `src/orchestrator.py` — `OrchestrationConfig` validation, the `orchestrate`
  weighted-fusion / action pipeline and its override rules, and the
  detailed-reason collection.
* `src/agents/link_agent.py` — the allowlist/typosquatting similarity check
  (`_check_allowlist_similarity`) and the per-URL aggregation loop of
  `analyze_links`.
* `src/agents/header_agent.py` — `_parse_received_header`,
  `_parse_routing_path`, `_is_suspicious_hop` and `_determine_verdict`.
* `src/agents/behavior_agent.py` — the `SQLiteEmailStore` read/write contract
  (`get_sender_history` / `record_email`).

Python `float` values are modelled as exact rationals (`ℚ`); Python `dict`
outputs with `.get(key, default)` accesses are modelled as structures with
`Option` fields read through `Option.getD`.  Presentation-only outputs of
`orchestrate` (the `confidence` float, which needs a real square root, and the
`summary` string) are not modelled; no claim refers to them.
-/

set_option maxRecDepth 8000

namespace EmailSec

/-! ## Orchestrator: configuration (src/orchestrator.py, lines 19-31) -/

/-- `OrchestrationConfig`: the four fusion weights (dataclass fields). -/
structure OrchestrationConfig where
  content_weight : ℚ
  link_weight : ℚ
  behavior_weight : ℚ
  qr_weight : ℚ
deriving DecidableEq, Repr

/-- Python's `abs` on floats, written so that it evaluates inside the
kernel (it agrees with `|·|` on `ℚ`, see `ratAbs_eq_abs`). -/
def ratAbs (a : ℚ) : ℚ := if a < 0 then -a else a

theorem ratAbs_eq_abs (a : ℚ) : ratAbs a = |a| := by
  simp only [ratAbs, abs]
  rcases lt_trichotomy a 0 with h | h | h
  · simp [h, le_of_lt h, left_eq_sup, neg_nonneg, le_of_lt h]
  · simp [h]
  · simp [not_lt.mpr (le_of_lt h), sup_eq_left, neg_le_self_iff, le_of_lt h]

/-- `OrchestrationConfig.__post_init__`: construction raises `ValueError`
when `abs(total - 1.0) > 0.001`, otherwise the dataclass is produced. -/
def mkOrchestrationConfig (c l b q : ℚ) : Except String OrchestrationConfig :=
  if ratAbs (c + l + b + q - 1) > 1/1000 then .error "Weights must sum to 1.0"
  else .ok ⟨c, l, b, q⟩

/-- The default weights (dataclass defaults, lines 22-25). -/
def defaultConfig : OrchestrationConfig := ⟨35/100, 25/100, 25/100, 15/100⟩

/-! ## Orchestrator: evaluator output dictionaries

`orchestrate` receives four `Dict[str, Any]` arguments and reads them only
through `.get(key, default)`.  Each dictionary is modelled as a structure
whose fields are the keys the orchestrator reads, each an `Option` so that a
missing key is representable; every read goes through `Option.getD` with the
source's default. -/

/-- One entry of `link_out['links']`, as read by the orchestrator
(`link.get('score', 0)`, `link_data.get('domain', 'unknown')`,
`link_data.get('reasons', [])`). -/
structure LinkItem where
  score : Option ℚ
  domain : Option String
  reasons : Option (List String)
deriving DecidableEq, Repr

/-- `content_out`, as read by the orchestrator. -/
structure ContentOut where
  score : Option ℚ
  explain : Option String
deriving DecidableEq, Repr

/-- `link_out`, as read by the orchestrator. -/
structure LinkOut where
  score : Option ℚ
  links : Option (List LinkItem)
  details : Option String
deriving DecidableEq, Repr

/-- `behavior_out`, as read by the orchestrator. -/
structure BehaviorOut where
  score : Option ℚ
  reasons : Option (List String)
deriving DecidableEq, Repr

/-- One entry of `qr_out['qr_codes']`, as read by the orchestrator. -/
structure QRItem where
  score : Option ℚ
  content_type : Option String
  reasons : Option (List String)
deriving DecidableEq, Repr

/-- `qr_out`, as read by the orchestrator. -/
structure QROut where
  score : Option ℚ
  qr_codes : Option (List QRItem)
  suspicious_count : Option Nat
  details : Option String
deriving DecidableEq, Repr

/-- One entry of the orchestrator's `detailed_reasons` list. -/
structure DetailedReason where
  agent : String
  score : ℚ
  weight : ℚ
  priority : ℚ
  text : String
deriving DecidableEq, Repr

/-- A result of `orchestrate` (modelled fields: `final_score`, `action`,
`detailed_reasons`; the presentation-only `confidence`/`summary` are
omitted, see the file header). -/
structure OrchestrationResult where
  final_score : ℚ
  action : String
  detailed_reasons : List DetailedReason
deriving DecidableEq, Repr

/-! ## Orchestrator: decision pipeline (src/orchestrator.py, lines 64-126) -/

/-- Baseline decision from the fused score (lines 81-87). -/
def baselineAction (final_score : ℚ) : String :=
  if final_score ≥ 7/10 then "quarantine"
  else if final_score ≥ 4/10 then "flag"
  else "allow"

/-- Link override (lines 90-95): when `link_score >= 0.8`, the links list is
non-empty, and some per-link `score` is `>= 0.8`, force `"quarantine"`. -/
def linkOverride (link_out : LinkOut) (link_score : ℚ) (action : String) : String :=
  if link_score ≥ 8/10 ∧ (link_out.links.getD []).length > 0 then
    if (link_out.links.getD []).filter (fun l => decide (l.score.getD 0 ≥ 8/10)) ≠ [] then
      "quarantine"
    else action
  else action

/-- Behavior override (lines 97-102): `allow → flag`, `flag → quarantine`. -/
def behaviorOverride (behavior_score : ℚ) (action : String) : String :=
  if behavior_score ≥ 8/10 then
    if action = "allow" then "flag"
    else if action = "flag" then "quarantine"
    else action
  else action

/-- QR override (lines 104-109): same escalation, gated on a nonzero
`suspicious_count`. -/
def qrOverride (qr_score : ℚ) (suspicious_count : Nat) (action : String) : String :=
  if qr_score ≥ 8/10 ∧ suspicious_count > 0 then
    if action = "allow" then "flag"
    else if action = "flag" then "quarantine"
    else action
  else action

/-- Stable descending insertion by `priority`: models Python's stable
`list.sort(key=lambda x: x['priority'], reverse=True)` (line 313). -/
def insertByPriority (x : DetailedReason) : List DetailedReason → List DetailedReason
  | [] => [x]
  | y :: ys => if x.priority > y.priority then x :: y :: ys else y :: insertByPriority x ys

/-- Stable sort, descending by `priority` (processes elements in original
order, so ties keep their original relative order, as CPython's sort does). -/
def sortByPriority (l : List DetailedReason) : List DetailedReason :=
  l.foldl (fun acc x => insertByPriority x acc) []

/-- Content part of `_collect_detailed_reasons` (lines 234-245). -/
def contentReasons (content_out : ContentOut) : List DetailedReason :=
  let cs := content_out.score.getD 0
  let ex := content_out.explain.getD ""
  if cs > 0 ∧ ex ≠ "" then
    [⟨"content", cs, 1/2, cs * (1/2), "Content: " ++ ex⟩]
  else []

/-- Per-link part of `_collect_detailed_reasons` (lines 260-271). -/
def linkItemReasons (l : LinkItem) : List DetailedReason :=
  let s := l.score.getD 0
  if s ≥ 1/2 then
    ((l.reasons.getD []).take 2).map (fun r =>
      ⟨"link", s, 3/10, s * (3/10), "Link " ++ l.domain.getD "unknown" ++ ": " ++ r⟩)
  else []

/-- Link part of `_collect_detailed_reasons` (lines 247-271). -/
def linkReasons (link_out : LinkOut) : List DetailedReason :=
  let ls := link_out.score.getD 0
  if ls > 0 then
    (if link_out.details.getD "" ≠ "" then
      [⟨"link", ls, 3/10, ls * (3/10), "Links: " ++ link_out.details.getD ""⟩]
     else []) ++
    ((link_out.links.getD []).map linkItemReasons).flatten
  else []

/-- Behavior part of `_collect_detailed_reasons` (lines 273-284). -/
def behaviorReasons (behavior_out : BehaviorOut) : List DetailedReason :=
  let bs := behavior_out.score.getD 0
  if bs > 0 then
    (behavior_out.reasons.getD []).map (fun r =>
      ⟨"behavior", bs, 25/100, bs * (25/100), "Behavior: " ++ r⟩)
  else []

/-- Per-QR-code part of `_collect_detailed_reasons` (lines 299-310). -/
def qrItemReasons (qd : QRItem) : List DetailedReason :=
  let s := qd.score.getD 0
  if s ≥ 1/2 then
    ((qd.reasons.getD []).take 2).map (fun r =>
      ⟨"qr", s, 15/100, s * (15/100),
        "QR Code (" ++ qd.content_type.getD "unknown" ++ "): " ++ r⟩)
  else []

/-- QR part of `_collect_detailed_reasons` (lines 286-310). -/
def qrReasons (qr_out : QROut) : List DetailedReason :=
  let qs := qr_out.score.getD 0
  if qs > 0 then
    (if qr_out.details.getD "" ≠ "" then
      [⟨"qr", qs, 15/100, qs * (15/100), "QR Codes: " ++ qr_out.details.getD ""⟩]
     else []) ++
    ((qr_out.qr_codes.getD []).map qrItemReasons).flatten
  else []

/-- `_collect_detailed_reasons` (lines 229-315): gather all evaluators'
reasons, then sort by descending `priority`. -/
def collectDetailedReasons (content_out : ContentOut) (link_out : LinkOut)
    (behavior_out : BehaviorOut) (qr_out : QROut) : List DetailedReason :=
  sortByPriority
    (contentReasons content_out ++ linkReasons link_out ++
     behaviorReasons behavior_out ++ qrReasons qr_out)

/-- `orchestrate` (lines 64-126): weighted fusion, baseline decision, the
three override rules in source order, and reason collection. -/
def orchestrate (content_out : ContentOut) (link_out : LinkOut)
    (behavior_out : BehaviorOut) (qr_out : QROut)
    (config : OrchestrationConfig) : OrchestrationResult :=
  let content_score := content_out.score.getD 0
  let link_score := link_out.score.getD 0
  let behavior_score := behavior_out.score.getD 0
  let qr_score := qr_out.score.getD 0
  let final_score :=
    content_score * config.content_weight +
    link_score * config.link_weight +
    behavior_score * config.behavior_weight +
    qr_score * config.qr_weight
  let action := baselineAction final_score
  let action := linkOverride link_out link_score action
  let action := behaviorOverride behavior_score action
  let action := qrOverride qr_score (qr_out.suspicious_count.getD 0) action
  { final_score := final_score
    action := action
    detailed_reasons := collectDetailedReasons content_out link_out behavior_out qr_out }

/-- Risk order of actions: `allow < flag < quarantine`. -/
def actionRank (a : String) : Nat :=
  if a = "flag" then 1 else if a = "quarantine" then 2 else 0

/-! ## Link agent: Levenshtein distance (src/agents/link_agent.py)

The source calls `Levenshtein.distance` (a C library); it is embedded as the
standard dynamic-programming edit distance: `levRow` turns the row of
distances for a prefix of the first word into the row after consuming one
more character. -/

/-- One inner step of the DP row update: `old` is the tail of the previous
row aligned with `ys`, `left` the entry just computed to the left. -/
def levRowStep (x : Char) : List Char → List Nat → Nat → List Nat
  | y :: ys, d0 :: d1 :: ds, left =>
    let cur := min (d0 + (if x = y then 0 else 1)) (min (d1 + 1) (left + 1))
    cur :: levRowStep x ys (d1 :: ds) cur
  | _, _, _ => []

/-- DP row update for one character `x` of the first word. -/
def levRow (x : Char) (ys : List Char) (old : List Nat) : List Nat :=
  match old with
  | d0 :: _ => (d0 + 1) :: levRowStep x ys old (d0 + 1)
  | [] => []

/-- Levenshtein edit distance between two strings. -/
def levDist (a b : String) : Nat :=
  (a.toList.foldl (fun row x => levRow x b.toList row)
    (List.range (b.toList.length + 1))).getLastD 0

/-! ## Link agent: allowlist similarity (lines 40-49 and 250-291) -/

/-- Python's binary `max` on ints, written so that it evaluates inside the
kernel (it agrees with `max` on `ℕ`, see `natMax_eq_max`). -/
def natMax (a b : Nat) : Nat := if a ≤ b then b else a

theorem natMax_eq_max (a b : Nat) : natMax a b = max a b := by
  simp [natMax, Nat.max_def]

/-- `self.allowlist_domains` (lines 43-49). -/
def allowlist_domains : List String :=
  ["microsoft.com", "google.com", "paypal.com", "amazon.com",
   "apple.com", "facebook.com", "twitter.com", "linkedin.com",
   "github.com", "stackoverflow.com", "wikipedia.org", "youtube.com",
   "gmail.com", "outlook.com", "yahoo.com", "hotmail.com",
   "office.com", "live.com", "dropbox.com", "zoom.us"]

/-- One iteration of the `min_distance` / `closest_domain` loop in
`_check_allowlist_similarity` (lines 256-263): `none` plays the role of the
initial `min_distance = inf`, `closest_domain = None` state, and the update
happens on a strictly smaller distance. -/
def scanStep (domain : String) (acc : Option (String × Nat)) (d : String) :
    Option (String × Nat) :=
  match acc with
  | none => some (d, levDist domain d)
  | some (c, m) => if levDist domain d < m then some (d, levDist domain d) else some (c, m)

/-- The full loop over the allowlist: the nearest entry (first argmin) and
its distance. -/
def scanAllowlist (domain : String) : Option (String × Nat) :=
  allowlist_domains.foldl (scanStep domain) none

/-- `_check_allowlist_similarity` (lines 250-277): exact allowlist members
score `0`; otherwise the similarity `1 - d/max(len(domain), len(closest))`
to the nearest entry is thresholded into penalties `0.6` / `0.4` / `0.3`. -/
def check_allowlist_similarity (domain : String) : ℚ :=
  if domain ∈ allowlist_domains then 0
  else
    match scanAllowlist domain with
    | none => 0
    | some (closest, d) =>
      let maxLen : ℚ := (natMax domain.length closest.length : Nat)
      let similarity : ℚ := 1 - (d : ℚ) / maxLen
      if similarity ≥ 8/10 ∧ d ≤ 3 then 6/10
      else if similarity ≥ 7/10 ∧ d ≤ 2 then 4/10
      else if similarity ≥ 6/10 ∧ d = 1 then 3/10
      else 0

/-! ## Link agent: per-URL aggregation (`analyze_links`, lines 86-142)

`_analyze_single_link` performs, among other things, a WHOIS network lookup,
so it is not a pure function of the URL; `analyze_links` is therefore
embedded with the single-URL analyzer as an explicit argument.  A raised
exception in `_analyze_single_link` is the `Except.error` case and carries
the exception text `str(e)`. -/

/-- Python's binary `min` on floats, written so that it evaluates inside the
kernel (it agrees with `min` on `ℚ`, see `ratMin_eq_min`). -/
def ratMin (a b : ℚ) : ℚ := if a ≤ b then a else b

theorem ratMin_eq_min (a b : ℚ) : ratMin a b = min a b := by
  simp [ratMin, min_def]

/-- A per-URL analysis dictionary (`url`, `domain`, `score`, `reasons`). -/
structure AnalyzedLink where
  url : String
  domain : String
  score : ℚ
  reasons : List String
deriving DecidableEq, Repr

/-- Aggregate output of `analyze_links`. -/
structure LinkAgg where
  score : ℚ
  links : List AnalyzedLink
  total_links : Nat
  suspicious_count : Nat
  details : String
deriving DecidableEq, Repr

/-- One iteration of the `for url in links` loop (lines 106-126): the
accumulator is `(analyzed_links, total_score, suspicious_count)`. -/
def linkStep (analyze1 : String → Except String AnalyzedLink)
    (acc : List AnalyzedLink × ℚ × Nat) (url : String) :
    List AnalyzedLink × ℚ × Nat :=
  match analyze1 url with
  | .ok r =>
    (acc.1 ++ [r], acc.2.1 + r.score,
     acc.2.2 + (if r.score ≥ 1/2 then 1 else 0))
  | .error e =>
    (acc.1 ++ [⟨url, "invalid", 1, ["Malformed URL: " ++ e]⟩],
     acc.2.1 + 1, acc.2.2 + 1)

/-- `_generate_details` of the link agent (lines 465-482). -/
def linkGenerateDetails (analyzed_links : List AnalyzedLink)
    (suspicious_count : Nat) (total_count : Nat) : String :=
  if total_count = 0 then "No links analyzed"
  else
    let parts := ["Analyzed " ++ toString total_count ++ " links"]
    let parts :=
      if suspicious_count > 0 then
        let parts := parts ++ [toString suspicious_count ++ " suspicious links detected"]
        let high_risk := analyzed_links.filter (fun l => decide (l.score ≥ 7/10))
        if high_risk ≠ [] then
          parts ++ [toString high_risk.length ++ " high-risk links found"]
        else parts
      else parts ++ ["No highly suspicious links detected"]
    String.intercalate ". " parts

/-- `analyze_links` (lines 86-142): empty input short-circuits; otherwise the
per-URL loop accumulates scores (a failing URL contributes `1.0`, one
malformed-URL reason, and counts as suspicious), and the aggregate score is
`min(1.0, total_score / len(links))`. -/
def analyze_links (analyze1 : String → Except String AnalyzedLink)
    (links : List String) : LinkAgg :=
  if links = [] then
    ⟨0, [], 0, 0, "No links to analyze"⟩
  else
    let st := links.foldl (linkStep analyze1) ([], 0, 0)
    let overall : ℚ := st.2.1 / (links.length : ℚ)
    ⟨ratMin 1 overall, st.1, links.length, st.2.2,
     linkGenerateDetails st.1 st.2.2 links.length⟩

/-! ## Header agent: helpers (src/agents/header_agent.py) -/

/-- `str.lower()`, written over the character list so that it evaluates
inside the kernel (ASCII lowering, `Char.toLower`). -/
def strLower (s : String) : String := String.mk (s.toList.map Char.toLower)

/-- Python's substring containment `pat in s`. -/
def hasSubstr (s pat : String) : Bool :=
  (List.range (s.toList.length + 1)).any
    (fun i => pat.toList.isPrefixOf (s.toList.drop i))

/-- The characters Python's `re` treats as `\s` (ASCII). -/
def isSpaceChar (c : Char) : Bool :=
  c = ' ' ∨ c = '\t' ∨ c = '\n' ∨ c = '\r' ∨ c = '\x0b' ∨ c = '\x0c'

/-! ## Header agent: `_determine_verdict` (lines 564-582) -/

/-- The predicate of line 568: a reason whose lowercased text contains both
`domain` and `match`. -/
def isIdentityMismatchReason (reason : String) : Bool :=
  hasSubstr (strLower reason) "domain" && hasSubstr (strLower reason) "match"

/-- The predicate of line 572: a reason whose lowercased text contains
`hop` or `routing`. -/
def isSuspiciousRoutingReason (reason : String) : Bool :=
  hasSubstr (strLower reason) "hop" || hasSubstr (strLower reason) "routing"

/-- `_determine_verdict` (lines 564-582). -/
def determine_verdict (score : ℚ) (identity_reasons routing_reasons : List String) :
    String :=
  let has_identity_mismatch := identity_reasons.any isIdentityMismatchReason
  let has_suspicious_routing := routing_reasons.any isSuspiciousRoutingReason
  if has_identity_mismatch ∧ score ≥ 3/10 then "identity mismatch"
  else if has_suspicious_routing ∧ score ≥ 4/10 then "suspicious routing"
  else if score ≥ 6/10 then "suspicious routing"
  else "normal"

/-! ## Header agent: `_parse_received_header` (lines 172-199)

The three `re` patterns are embedded as left-to-right scans with the same
leftmost-match semantics; `Received` lines are modelled as single-line
strings (no embedded newline), which is what the header map supplies. -/

/-- One attempt of `(?:from|by)\s+([^\s\[\(]+)` at a fixed position, for the
keyword `kw` (matched case-insensitively). -/
def tryServerKeyword (kw : List Char) (s : List Char) : Option (List Char) :=
  if (s.take kw.length).map Char.toLower = kw then
    let rest := s.drop kw.length
    let ws := rest.takeWhile isSpaceChar
    if ws = [] then none
    else
      let tok := (rest.drop ws.length).takeWhile
        (fun c => !isSpaceChar c && c ≠ '[' && c ≠ '(')
      if tok = [] then none else some tok
  else none

/-- Leftmost match of `(?:from|by)\s+([^\s\[\(]+)` (case-insensitive): the
alternation tries `from` then `by` at each position before advancing. -/
def findServerToken : List Char → Option (List Char)
  | [] => none
  | c :: cs =>
    match tryServerKeyword "from".toList (c :: cs) with
    | some tok => some tok
    | none =>
      match tryServerKeyword "by".toList (c :: cs) with
      | some tok => some tok
      | none => findServerToken cs

/-- The character class `[0-9a-fA-F:.]` of the IP pattern. -/
def isIpChar (c : Char) : Bool :=
  c.isDigit ∨ ('a' ≤ c ∧ c ≤ 'f') ∨ ('A' ≤ c ∧ c ≤ 'F') ∨ c = ':' ∨ c = '.'

/-- Leftmost match of `\[([0-9a-fA-F:.]+)\]`: an opening bracket followed by
a non-empty class run and a closing bracket. -/
def findBracketIp : List Char → Option (List Char)
  | [] => none
  | c :: cs =>
    if c = '[' then
      let run := cs.takeWhile isIpChar
      match cs.drop run.length with
      | ']' :: _ => if run = [] then findBracketIp cs else some run
      | _ => findBracketIp cs
    else findBracketIp cs

/-- The capture of `;\s*(.+)$` after a matched `;`, on a newline-free line:
the remainder with its `\s*` prefix removed, except that an all-whitespace
remainder backtracks to a single-character capture. -/
def timestampCapture (r : List Char) : Option (List Char) :=
  if r = [] then none
  else
    let p := r.dropWhile isSpaceChar
    if p ≠ [] then some p else some [r.getLastD ' ']

/-- Leftmost match of `;\s*(.+)$` on a newline-free line. -/
def findTimestampText : List Char → Option (List Char)
  | [] => none
  | c :: cs =>
    if c = ';' then
      match timestampCapture cs with
      | some t => some t
      | none => findTimestampText cs
    else findTimestampText cs

/-- A `RouteHop` (lines 21-27).  The `timestamp` field holds the raw text
matched by `;\s*(.+)$`; the source feeds that text to the external parser
`email.utils.parsedate_to_datetime` (best-effort, `None` on failure), whose
date semantics is outside the embedding and is not used by any claim. -/
structure RouteHop where
  server : String
  ip_address : Option String
  timestamp : Option String
  raw_header : String
deriving DecidableEq, Repr

/-- The `RouteHop` built from a non-empty `Received` line (lines 177-199):
the three regex extractions, the server defaulting to `unknown` and
lowercased. -/
def mkReceivedHop (received : String) : RouteHop :=
  { server :=
      strLower (match findServerToken received.toList with
       | some tok => String.mk tok
       | none => "unknown")
    ip_address := (findBracketIp received.toList).map String.mk
    timestamp := (findTimestampText received.toList).map String.mk
    raw_header := received }

/-- `_parse_received_header` (lines 172-199): `None` only for a falsy
(empty) line; otherwise `mkReceivedHop`. -/
def parse_received_header (received : String) : Option RouteHop :=
  if received = "" then none
  else some (mkReceivedHop received)

/-! ## Header agent: `_is_suspicious_hop` (lines 201-224) -/

/-- `self.suspicious_tlds` of the header agent (lines 58-60). -/
def header_suspicious_tlds : List String :=
  [".ru", ".cn", ".tk", ".ml", ".ga", ".cf", ".gq", ".cc", ".pw"]

/-- `self.bulk_indicators` (lines 63-66). -/
def bulk_indicators : List String :=
  ["bulk", "mass", "blast", "campaign", "newsletter", "marketing",
   "mailgun", "sendgrid", "mandrill", "mailchimp"]

/-- Python's `str.split(sep)` for a single-character separator, over
character lists. -/
def splitChar (sep : Char) : List Char → List (List Char)
  | [] => [[]]
  | c :: cs =>
    if c = sep then [] :: splitChar sep cs
    else
      match splitChar sep cs with
      | g :: gs => (c :: g) :: gs
      | [] => [[c]]

/-- Strict dotted-quad IPv4 parse, as `ipaddress.ip_address` accepts it
(exactly four decimal octets, each at most 255, no leading zeros). -/
def parseIPv4 (s : String) : Option (Nat × Nat × Nat × Nat) :=
  match splitChar '.' s.toList with
  | [a, b, c, d] =>
    let octet : List Char → Option Nat := fun l =>
      if l ≠ [] ∧ l.length ≤ 3 ∧ l.all Char.isDigit ∧ (l.length = 1 ∨ l.headD '0' ≠ '0')
      then
        let v := l.foldl (fun acc ch => acc * 10 + (ch.toNat - '0'.toNat)) 0
        if v ≤ 255 then some v else none
      else none
    match octet a, octet b, octet c, octet d with
    | some x, some y, some z, some w => some (x, y, z, w)
    | _, _, _, _ => none
  | _ => none

/-- Modelled from the Python stdlib `ipaddress` module (an external library):
`is_private or is_loopback or is_link_local` for an IPv4 literal, i.e. the
standard private, loopback, link-local, reserved and documentation ranges.
IPv6 literals (which cannot carry the `.`-separated shape below) are
conservatively classified as not flagged; no claim depends on this field. -/
def ipv4Flagged (a b c d : Nat) : Bool :=
  a = 0 ∨ a = 10 ∨ a = 127 ∨ (a = 169 ∧ b = 254) ∨
  (a = 172 ∧ 16 ≤ b ∧ b ≤ 31) ∨
  (a = 192 ∧ b = 0 ∧ c = 0 ∧ (d ≤ 7 ∨ d = 170 ∨ d = 171)) ∨
  (a = 192 ∧ b = 0 ∧ c = 2) ∨ (a = 192 ∧ b = 168) ∨
  (a = 198 ∧ (b = 18 ∨ b = 19)) ∨ (a = 198 ∧ b = 51 ∧ c = 100) ∨
  (a = 203 ∧ b = 0 ∧ c = 113) ∨ 240 ≤ a

/-- `_is_suspicious_hop` (lines 201-224): suspicious TLD or bulk keyword as
a substring of the lowercased server, or a private/loopback/link-local IP
literal. -/
def is_suspicious_hop (hop : RouteHop) : Bool :=
  let server_lower := strLower hop.server
  header_suspicious_tlds.any (fun tld => hasSubstr server_lower tld) ||
  bulk_indicators.any (fun ind => hasSubstr server_lower ind) ||
  (match hop.ip_address with
   | some ip =>
     match parseIPv4 ip with
     | some (a, b, c, d) => ipv4Flagged a b c d
     | none => false
   | none => false)

/-! ## Header agent: `_parse_routing_path` (lines 133-170) -/

/-- The shape of `headers['Received']` (absent, a single string, or a list
of strings), normalized by lines 135-143. -/
inductive ReceivedField where
  | absent : ReceivedField
  | one : String → ReceivedField
  | many : List String → ReceivedField
deriving DecidableEq, Repr

/-- The `received_headers` list extracted by lines 135-143. -/
def receivedLines : ReceivedField → List String
  | .absent => []
  | .one s => [s]
  | .many l => l

/-- `RoutingAnalysis` (lines 29-37). -/
structure RoutingAnalysis where
  total_hops : Nat
  route_hops : List RouteHop
  origin_server : Option String
  origin_ip : Option String
  final_server : Option String
  suspicious_hops : List String
deriving DecidableEq, Repr

/-- `_parse_routing_path` (lines 133-170): parse each `Received` line in
reversed physical order (so the chronologically oldest hop comes first),
collect the suspicious servers, and read origin/final off the ends. -/
def parse_routing_path (headers : ReceivedField) : RoutingAnalysis :=
  let received_headers := receivedLines headers
  let route_hops := received_headers.reverse.filterMap parse_received_header
  { total_hops := route_hops.length
    route_hops := route_hops
    origin_server := route_hops.head?.map (fun h => h.server)
    origin_ip := route_hops.head?.bind (fun h => h.ip_address)
    final_server := route_hops.getLast?.map (fun h => h.server)
    suspicious_hops := (route_hops.filter is_suspicious_hop).map (fun h => h.server) }

/-! ## Behavior agent: `SQLiteEmailStore` (src/agents/behavior_agent.py)

The store's observable state is the multiset of inserted rows
(`sender_history` is append-only; `id`/`created_at` are never read).
Timestamps are stored as `isoformat()` strings and re-parsed with
`fromisoformat` — a faithful round trip — so a timestamp is modelled as an
integer.  `get_sender_history` reads rows `ORDER BY timestamp ASC`; only
`display_names`/`reply_to_addresses` could observe an order, and the source
pipes those through an unordered Python `set`, modelled here as
first-occurrence deduplication. -/

/-- One row of the `sender_history` table (the columns the source reads). -/
structure StoreRow where
  sender_email : String
  display_name : String
  reply_to : String
  timestamp : Int
deriving DecidableEq, Repr

/-- `SenderHistory` (lines 23-31). -/
structure SenderHistory where
  email : String
  message_count : Nat
  first_seen : Int
  last_seen : Int
  display_names : List String
  reply_to_addresses : List String
deriving DecidableEq, Repr

/-- `get_sender_history` (lines 107-142): select the rows whose
`sender_email` equals the lowercased argument; `None` when there are none,
otherwise the count, the min/max timestamp, and the deduplicated non-empty
display names and reply-to addresses. -/
def get_sender_history (store : List StoreRow) (sender_email : String) :
    Option SenderHistory :=
  let rows := store.filter (fun r => r.sender_email = strLower sender_email)
  match rows with
  | [] => none
  | r :: rs => some
    { email := sender_email
      message_count := rs.length + 1
      first_seen := rs.foldl (fun m x => if m ≤ x.timestamp then m else x.timestamp) r.timestamp
      last_seen := rs.foldl (fun m x => if m ≤ x.timestamp then x.timestamp else m) r.timestamp
      display_names := ((r :: rs).filter (fun x => x.display_name ≠ "")).map
        (fun x => x.display_name) |>.dedup
      reply_to_addresses := ((r :: rs).filter (fun x => x.reply_to ≠ "")).map
        (fun x => x.reply_to) |>.dedup }

/-- `record_email` (lines 144-153): insert one row with the lowercased
sender key. -/
def record_email (store : List StoreRow) (sender_email display_name reply_to : String)
    (timestamp : Int) : List StoreRow :=
  store ++ [⟨strLower sender_email, display_name, reply_to, timestamp⟩]

/-! ## Lemmas about the orchestrator's action pipeline -/

/-- The three actions the decision pipeline speaks about. -/
def isValidAction (a : String) : Prop :=
  a = "allow" ∨ a = "flag" ∨ a = "quarantine"

theorem actionRank_le_two (a : String) : actionRank a ≤ 2 := by
  unfold actionRank
  split
  · omega
  · split <;> omega

theorem actionRank_le_linkOverride (lo : LinkOut) (s : ℚ) (a : String) :
    actionRank a ≤ actionRank (linkOverride lo s a) := by
  unfold linkOverride
  split
  · split
    · calc actionRank a ≤ 2 := actionRank_le_two a
        _ = actionRank "quarantine" := by decide
    · exact le_refl _
  · exact le_refl _

theorem behaviorOverride_step (s : ℚ) (a : String) :
    actionRank a ≤ actionRank (behaviorOverride s a) ∧
      actionRank (behaviorOverride s a) ≤ actionRank a + 1 := by
  unfold behaviorOverride
  split
  · split
    · rename_i h
      subst h
      exact ⟨by decide, by decide⟩
    · split
      · rename_i h
        subst h
        exact ⟨by decide, by decide⟩
      · exact ⟨le_refl _, Nat.le_succ _⟩
  · exact ⟨le_refl _, Nat.le_succ _⟩

theorem qrOverride_step (s : ℚ) (n : Nat) (a : String) :
    actionRank a ≤ actionRank (qrOverride s n a) ∧
      actionRank (qrOverride s n a) ≤ actionRank a + 1 := by
  unfold qrOverride
  split
  · split
    · rename_i h
      subst h
      exact ⟨by decide, by decide⟩
    · split
      · rename_i h
        subst h
        exact ⟨by decide, by decide⟩
      · exact ⟨le_refl _, Nat.le_succ _⟩
  · exact ⟨le_refl _, Nat.le_succ _⟩

theorem baselineAction_valid (s : ℚ) : isValidAction (baselineAction s) := by
  unfold baselineAction isValidAction
  split
  · exact Or.inr (Or.inr rfl)
  · split
    · exact Or.inr (Or.inl rfl)
    · exact Or.inl rfl

theorem linkOverride_valid (lo : LinkOut) (s : ℚ) (a : String)
    (h : isValidAction a) : isValidAction (linkOverride lo s a) := by
  unfold linkOverride
  split
  · split
    · exact Or.inr (Or.inr rfl)
    · exact h
  · exact h

theorem behaviorOverride_valid (s : ℚ) (a : String)
    (h : isValidAction a) : isValidAction (behaviorOverride s a) := by
  unfold behaviorOverride
  split
  · split
    · exact Or.inr (Or.inl rfl)
    · split
      · exact Or.inr (Or.inr rfl)
      · exact h
  · exact h

theorem qrOverride_valid (s : ℚ) (n : Nat) (a : String)
    (h : isValidAction a) : isValidAction (qrOverride s n a) := by
  unfold qrOverride
  split
  · split
    · exact Or.inr (Or.inl rfl)
    · split
      · exact Or.inr (Or.inr rfl)
      · exact h
  · exact h

/-- The action of `orchestrate`, written as the explicit composition of the
baseline decision and the three overrides in source order. -/
theorem orchestrate_action_eq (content_out : ContentOut) (link_out : LinkOut)
    (behavior_out : BehaviorOut) (qr_out : QROut) (config : OrchestrationConfig) :
    (orchestrate content_out link_out behavior_out qr_out config).action =
      qrOverride (qr_out.score.getD 0) (qr_out.suspicious_count.getD 0)
        (behaviorOverride (behavior_out.score.getD 0)
          (linkOverride link_out (link_out.score.getD 0)
            (baselineAction
              ((orchestrate content_out link_out behavior_out qr_out config).final_score)))) :=
  rfl

/-- C2.  For every evaluator input and configuration, the action returned by
`orchestrate` is never lower-risk than the baseline action computed from
`final_score` alone by the `0.4`/`0.7` thresholds: the three override rules
only ever move the action upward in the order
`allow < flag < quarantine`. -/
theorem claim2_action_never_below_baseline (content_out : ContentOut)
    (link_out : LinkOut) (behavior_out : BehaviorOut) (qr_out : QROut)
    (config : OrchestrationConfig) :
    actionRank (baselineAction
        ((orchestrate content_out link_out behavior_out qr_out config).final_score)) ≤
      actionRank ((orchestrate content_out link_out behavior_out qr_out config).action) := by
  rw [orchestrate_action_eq]
  exact le_trans
    (actionRank_le_linkOverride link_out (link_out.score.getD 0) _)
    (le_trans (behaviorOverride_step (behavior_out.score.getD 0) _).1
      (qrOverride_step (qr_out.score.getD 0) (qr_out.suspicious_count.getD 0) _).1)

/-- C3.  Constructing an `OrchestrationConfig` succeeds exactly when the four
weights sum to `1` within the `1e-3` tolerance, and `orchestrate` is total at
request time: on every input and every configuration it returns a result
whose action is one of `allow`/`flag`/`quarantine` (its embedding is a total
function; the source's request-time path contains no `raise`). -/
theorem claim3_config_validation_iff :
    (∀ w1 w2 w3 w4 : ℚ,
      (∃ cfg, mkOrchestrationConfig w1 w2 w3 w4 = .ok cfg) ↔
        |w1 + w2 + w3 + w4 - 1| ≤ 1/1000) ∧
    (∀ (config : OrchestrationConfig) (content_out : ContentOut) (link_out : LinkOut)
      (behavior_out : BehaviorOut) (qr_out : QROut),
      isValidAction ((orchestrate content_out link_out behavior_out qr_out config).action)) := by
  constructor
  · intro w1 w2 w3 w4
    constructor
    · rintro ⟨cfg, h⟩
      by_contra habs
      rw [mkOrchestrationConfig, if_pos] at h
      · exact Except.noConfusion h
      · rw [ratAbs_eq_abs]
        exact not_le.mp habs
    · intro h
      refine ⟨⟨w1, w2, w3, w4⟩, ?_⟩
      rw [mkOrchestrationConfig, if_neg]
      rw [ratAbs_eq_abs]
      exact not_lt.mpr h
  · intro config content_out link_out behavior_out qr_out
    rw [orchestrate_action_eq]
    exact qrOverride_valid _ _ _ (behaviorOverride_valid _ _
      (linkOverride_valid _ _ _ (baselineAction_valid _)))

/-- Witness for C3: the default weight configuration is accepted. -/
theorem claim3_config_validation_iff_witness :
    ∃ cfg, mkOrchestrationConfig (35/100) (25/100) (25/100) (15/100) = .ok cfg :=
  (claim3_config_validation_iff.1 (35/100) (25/100) (25/100) (15/100)).mpr
    (ratAbs_eq_abs ((35:ℚ)/100 + 25/100 + 25/100 + 15/100 - 1) ▸
      (by with_unfolding_all decide :
        ratAbs ((35:ℚ)/100 + 25/100 + 25/100 + 15/100 - 1) ≤ 1/1000))

/-! ## C1: weighted fusion and its range -/

/-- Counterexample to C1 as stated.  Both configurations pass
construction-time validation (`__post_init__` only checks the *sum* of the
weights), all supplied scores lie in `[0,1]`, yet `final_score` exceeds `1`:
with weights `(2, -1, 0, 0)` (sum exactly `1`) and scores `(1, 0, 0, 0)` the
fused score is `2`; and even with the nonnegative weights
`(0.351, 0.25, 0.25, 0.15)` (sum `1.001`, inside the tolerance) and all
scores `1` the fused score is `1.001 > 1`. -/
theorem claim1_final_score_counterexample :
    (∃ cfg, mkOrchestrationConfig 2 (-1) 0 0 = .ok cfg ∧
      (orchestrate ⟨some 1, none⟩ ⟨some 0, none, none⟩ ⟨some 0, none⟩
        ⟨some 0, none, none, none⟩ cfg).final_score = 2) ∧
    (∃ cfg, mkOrchestrationConfig (351/1000) (25/100) (25/100) (15/100) = .ok cfg ∧
      (orchestrate ⟨some 1, none⟩ ⟨some 1, none, none⟩ ⟨some 1, none⟩
        ⟨some 1, none, none, none⟩ cfg).final_score = 1001/1000) ∧
    ¬ ((2 : ℚ) ≤ 1) ∧ ¬ ((1001/1000 : ℚ) ≤ 1) := by
  exact ⟨⟨⟨2, -1, 0, 0⟩, by with_unfolding_all rfl, by with_unfolding_all decide⟩,
    ⟨⟨351/1000, 25/100, 25/100, 15/100⟩, by with_unfolding_all rfl,
      by with_unfolding_all decide⟩,
    by with_unfolding_all decide, by with_unfolding_all decide⟩

/-- C1 (amended).  For every configuration that passes construction-time
validation, `final_score` is exactly the weighted sum of the four `score`
entries; and, provided the weights are in addition nonnegative, it lies in
`[0, 1 + 1e-3]` whenever all four scores lie in `[0,1]` (the tolerance makes
the exact bound `1.001`, not `1`, and without nonnegativity of the
individual weights no bound holds, see the counterexample). -/
theorem claim1_weighted_fusion_bounds
    (w1 w2 w3 w4 : ℚ) (cfg : OrchestrationConfig)
    (hcfg : mkOrchestrationConfig w1 w2 w3 w4 = .ok cfg)
    (content_out : ContentOut) (link_out : LinkOut)
    (behavior_out : BehaviorOut) (qr_out : QROut)
    (hc0 : 0 ≤ content_out.score.getD 0) (hc1 : content_out.score.getD 0 ≤ 1)
    (hl0 : 0 ≤ link_out.score.getD 0) (hl1 : link_out.score.getD 0 ≤ 1)
    (hb0 : 0 ≤ behavior_out.score.getD 0) (hb1 : behavior_out.score.getD 0 ≤ 1)
    (hq0 : 0 ≤ qr_out.score.getD 0) (hq1 : qr_out.score.getD 0 ≤ 1) :
    (orchestrate content_out link_out behavior_out qr_out cfg).final_score =
      content_out.score.getD 0 * w1 + link_out.score.getD 0 * w2 +
      behavior_out.score.getD 0 * w3 + qr_out.score.getD 0 * w4 ∧
    (0 ≤ w1 → 0 ≤ w2 → 0 ≤ w3 → 0 ≤ w4 →
      0 ≤ (orchestrate content_out link_out behavior_out qr_out cfg).final_score ∧
      (orchestrate content_out link_out behavior_out qr_out cfg).final_score ≤
        1 + 1/1000) := by
  unfold mkOrchestrationConfig at hcfg
  split at hcfg
  · exact Except.noConfusion hcfg
  · rename_i hcond
    injection hcfg with hcfg
    subst hcfg
    rw [ratAbs_eq_abs] at hcond
    have hsum : w1 + w2 + w3 + w4 ≤ 1 + 1/1000 := by
      have := (abs_le.mp (not_lt.mp hcond)).2
      linarith
    refine ⟨rfl, fun h1 h2 h3 h4 => ⟨?_, ?_⟩⟩
    · have := mul_nonneg hc0 h1
      have := mul_nonneg hl0 h2
      have := mul_nonneg hb0 h3
      have := mul_nonneg hq0 h4
      show (0:ℚ) ≤ _
      dsimp [orchestrate]
      linarith
    · have e1 := mul_le_of_le_one_left h1 hc1
      have e2 := mul_le_of_le_one_left h2 hl1
      have e3 := mul_le_of_le_one_left h3 hb1
      have e4 := mul_le_of_le_one_left h4 hq1
      show _ ≤ (1:ℚ) + 1/1000
      dsimp [orchestrate]
      linarith

/-- Witness for C1 (amended), at the default weights and all scores `1/2`. -/
theorem claim1_weighted_fusion_bounds_witness :
    (orchestrate ⟨some (1/2), none⟩ ⟨some (1/2), none, none⟩ ⟨some (1/2), none⟩
      ⟨some (1/2), none, none, none⟩ ⟨35/100, 25/100, 25/100, 15/100⟩).final_score =
      (1/2 : ℚ) * (35/100) + (1/2) * (25/100) + (1/2) * (25/100) + (1/2) * (15/100) ∧
    (0 ≤ (35:ℚ)/100 → 0 ≤ (25:ℚ)/100 → 0 ≤ (25:ℚ)/100 → 0 ≤ (15:ℚ)/100 →
      0 ≤ (orchestrate ⟨some (1/2), none⟩ ⟨some (1/2), none, none⟩ ⟨some (1/2), none⟩
        ⟨some (1/2), none, none, none⟩ ⟨35/100, 25/100, 25/100, 15/100⟩).final_score ∧
      (orchestrate ⟨some (1/2), none⟩ ⟨some (1/2), none, none⟩ ⟨some (1/2), none⟩
        ⟨some (1/2), none, none, none⟩ ⟨35/100, 25/100, 25/100, 15/100⟩).final_score ≤
        1 + 1/1000) :=
  claim1_weighted_fusion_bounds (35/100) (25/100) (25/100) (15/100)
    ⟨35/100, 25/100, 25/100, 15/100⟩ (by with_unfolding_all rfl)
    ⟨some (1/2), none⟩ ⟨some (1/2), none, none⟩ ⟨some (1/2), none⟩
    ⟨some (1/2), none, none, none⟩
    (by with_unfolding_all decide) (by with_unfolding_all decide)
    (by with_unfolding_all decide) (by with_unfolding_all decide)
    (by with_unfolding_all decide) (by with_unfolding_all decide)
    (by with_unfolding_all decide) (by with_unfolding_all decide)

/-! ## C8: step sizes of the escalation overrides -/

/-- Counterexample to C8 as stated.  With the default weights, a link score
of `0.85` and one per-URL finding scored `0.9` (and everything else `0`),
the baseline action is `allow` (fused score `0.2125 < 0.4`), but the link
override fires and forces `quarantine`: it moves the action by two steps,
not at most one. -/
theorem claim8_link_override_counterexample :
    baselineAction ((orchestrate ⟨some 0, none⟩
        ⟨some (85/100), some [⟨some (9/10), none, none⟩], none⟩
        ⟨some 0, none⟩ ⟨some 0, none, none, none⟩ defaultConfig).final_score) =
      "allow" ∧
    linkOverride ⟨some (85/100), some [⟨some (9/10), none, none⟩], none⟩
      (85/100) "allow" = "quarantine" ∧
    (orchestrate ⟨some 0, none⟩
        ⟨some (85/100), some [⟨some (9/10), none, none⟩], none⟩
        ⟨some 0, none⟩ ⟨some 0, none, none, none⟩ defaultConfig).action =
      "quarantine" ∧
    actionRank "quarantine" = actionRank "allow" + 2 := by
  refine ⟨?_, ?_, ?_, ?_⟩ <;> with_unfolding_all decide

/-- C8 (amended).  Applied after the baseline decision, the behavior and QR
overrides raise the action by at most one step on `allow < flag <
quarantine` and never lower it; the link override never lowers the action,
but when it fires it forces `quarantine` outright, which can raise the
action by up to two steps (see the counterexample); `orchestrate` applies
the three overrides to the baseline action in this order. -/
theorem claim8_override_steps_amended (content_out : ContentOut)
    (link_out : LinkOut) (behavior_out : BehaviorOut) (qr_out : QROut)
    (config : OrchestrationConfig) (ls bs qs : ℚ) (n : Nat) (a : String) :
    (actionRank a ≤ actionRank (linkOverride link_out ls a) ∧
      actionRank (linkOverride link_out ls a) ≤ 2) ∧
    (actionRank a ≤ actionRank (behaviorOverride bs a) ∧
      actionRank (behaviorOverride bs a) ≤ actionRank a + 1) ∧
    (actionRank a ≤ actionRank (qrOverride qs n a) ∧
      actionRank (qrOverride qs n a) ≤ actionRank a + 1) ∧
    (orchestrate content_out link_out behavior_out qr_out config).action =
      qrOverride (qr_out.score.getD 0) (qr_out.suspicious_count.getD 0)
        (behaviorOverride (behavior_out.score.getD 0)
          (linkOverride link_out (link_out.score.getD 0)
            (baselineAction
              ((orchestrate content_out link_out behavior_out qr_out config).final_score)))) :=
  ⟨⟨actionRank_le_linkOverride link_out ls a, actionRank_le_two _⟩,
   behaviorOverride_step bs a, qrOverride_step qs n a, rfl⟩

/-! ## C10: missing dictionary keys take their defaults -/

/-- The dictionary with every key the orchestrator reads made explicit with
its source default (`.get('score', 0.0)`, `.get('explain', '')`). -/
def fillContent (c : ContentOut) : ContentOut :=
  ⟨some (c.score.getD 0), some (c.explain.getD "")⟩

/-- Defaults for one links entry (`.get('score', 0)`,
`.get('domain', 'unknown')`, `.get('reasons', [])`). -/
def fillLinkItem (l : LinkItem) : LinkItem :=
  ⟨some (l.score.getD 0), some (l.domain.getD "unknown"), some (l.reasons.getD [])⟩

/-- Defaults for `link_out` (`.get('score', 0.0)`, `.get('links', [])`,
`.get('details', '')`). -/
def fillLink (l : LinkOut) : LinkOut :=
  ⟨some (l.score.getD 0), some ((l.links.getD []).map fillLinkItem),
   some (l.details.getD "")⟩

/-- Defaults for `behavior_out` (`.get('score', 0.0)`, `.get('reasons', [])`). -/
def fillBehavior (b : BehaviorOut) : BehaviorOut :=
  ⟨some (b.score.getD 0), some (b.reasons.getD [])⟩

/-- Defaults for one qr_codes entry. -/
def fillQRItem (q : QRItem) : QRItem :=
  ⟨some (q.score.getD 0), some (q.content_type.getD "unknown"), some (q.reasons.getD [])⟩

/-- Defaults for `qr_out` (`.get('score', 0.0)`, `.get('qr_codes', [])`,
`.get('suspicious_count', 0)`, `.get('details', '')`). -/
def fillQR (q : QROut) : QROut :=
  ⟨some (q.score.getD 0), some ((q.qr_codes.getD []).map fillQRItem),
   some (q.suspicious_count.getD 0), some (q.details.getD "")⟩

theorem contentReasons_fill (c : ContentOut) :
    contentReasons (fillContent c) = contentReasons c := by
  simp [contentReasons, fillContent]

theorem linkItemReasons_fill (l : LinkItem) :
    linkItemReasons (fillLinkItem l) = linkItemReasons l := by
  simp [linkItemReasons, fillLinkItem]

theorem linkReasons_fill (l : LinkOut) :
    linkReasons (fillLink l) = linkReasons l := by
  simp [linkReasons, fillLink, List.map_map, Function.comp_def, linkItemReasons_fill]

theorem behaviorReasons_fill (b : BehaviorOut) :
    behaviorReasons (fillBehavior b) = behaviorReasons b := by
  simp [behaviorReasons, fillBehavior]

theorem qrItemReasons_fill (q : QRItem) :
    qrItemReasons (fillQRItem q) = qrItemReasons q := by
  simp [qrItemReasons, fillQRItem]

theorem qrReasons_fill (q : QROut) :
    qrReasons (fillQR q) = qrReasons q := by
  simp [qrReasons, fillQR, List.map_map, Function.comp_def, qrItemReasons_fill]

theorem linkOverride_fill (l : LinkOut) (s : ℚ) (a : String) :
    linkOverride (fillLink l) s a = linkOverride l s a := by
  have hp : ∀ i : LinkItem,
      (decide ((fillLinkItem i).score.getD 0 ≥ 8/10)) =
        (decide (i.score.getD 0 ≥ 8/10)) := by
    intro i
    simp [fillLinkItem]
  simp only [linkOverride, fillLink, Option.getD_some, List.length_map,
    List.filter_map, Function.comp_def, hp]
  split
  · split <;> rename_i hf
    · rw [if_pos]
      intro hnil
      simp [hnil] at hf
    · rw [if_neg]
      simpa using hf
  · rfl

theorem orchestrationResult_ext (r s : OrchestrationResult)
    (h1 : r.final_score = s.final_score) (h2 : r.action = s.action)
    (h3 : r.detailed_reasons = s.detailed_reasons) : r = s := by
  cases r
  cases s
  simp_all

/-- C10.  `orchestrate` reads every key through `.get(key, default)`: its
result on arbitrary evaluator-output dictionaries equals its result after
every missing key is replaced by the documented default (score `0.0`,
collections empty, strings empty), and on fully empty dictionaries it still
returns a result, with `final_score = 0`, action `allow` and no reasons —
no key-lookup error is possible. -/
theorem claim10_missing_keys_defaults (config : OrchestrationConfig)
    (content_out : ContentOut) (link_out : LinkOut)
    (behavior_out : BehaviorOut) (qr_out : QROut) :
    orchestrate content_out link_out behavior_out qr_out config =
      orchestrate (fillContent content_out) (fillLink link_out)
        (fillBehavior behavior_out) (fillQR qr_out) config ∧
    (orchestrate ⟨none, none⟩ ⟨none, none, none⟩ ⟨none, none⟩
      ⟨none, none, none, none⟩ config).final_score = 0 ∧
    (orchestrate ⟨none, none⟩ ⟨none, none, none⟩ ⟨none, none⟩
      ⟨none, none, none, none⟩ config).action = "allow" ∧
    (orchestrate ⟨none, none⟩ ⟨none, none, none⟩ ⟨none, none⟩
      ⟨none, none, none, none⟩ config).detailed_reasons = [] := by
  refine ⟨?_, ?_, ?_, ?_⟩
  · refine (orchestrationResult_ext _ _ ?_ ?_ ?_).symm
    · show _ = (orchestrate content_out link_out behavior_out qr_out config).final_score
      simp [orchestrate, fillContent, fillLink, fillBehavior, fillQR]
    · rw [orchestrate_action_eq, orchestrate_action_eq]
      have hfs : (orchestrate (fillContent content_out) (fillLink link_out)
          (fillBehavior behavior_out) (fillQR qr_out) config).final_score =
          (orchestrate content_out link_out behavior_out qr_out config).final_score := by
        simp [orchestrate, fillContent, fillLink, fillBehavior, fillQR]
      rw [hfs, linkOverride_fill]
      rfl
    · show (orchestrate (fillContent content_out) (fillLink link_out)
          (fillBehavior behavior_out) (fillQR qr_out) config).detailed_reasons = _
      show collectDetailedReasons _ _ _ _ = collectDetailedReasons _ _ _ _
      unfold collectDetailedReasons
      rw [contentReasons_fill, linkReasons_fill, behaviorReasons_fill, qrReasons_fill]
  · simp [orchestrate]
  · rw [orchestrate_action_eq]
    have h0 : (orchestrate ⟨none, none⟩ ⟨none, none, none⟩ ⟨none, none⟩
        ⟨none, none, none, none⟩ config).final_score = 0 := by
      simp [orchestrate]
    rw [h0]
    norm_num [baselineAction, linkOverride, behaviorOverride, qrOverride]
  · show collectDetailedReasons _ _ _ _ = []
    norm_num [collectDetailedReasons, contentReasons, linkReasons, behaviorReasons,
      qrReasons, sortByPriority]

/-! ## C4: the allowlist scan computes the minimum distance -/

/-- Fold invariant for the `min_distance` / `closest_domain` loop, started
from an already-populated accumulator. -/
theorem scanStep_foldl_spec (domain : String) :
    ∀ (l : List String) (c : String) (m : Nat),
      ∃ cf mf, l.foldl (scanStep domain) (some (c, m)) = some (cf, mf) ∧
        mf ≤ m ∧ (cf = c ∨ cf ∈ l) ∧
        (levDist domain c = m → levDist domain cf = mf) ∧
        ∀ b ∈ l, mf ≤ levDist domain b := by
  intro l
  induction l with
  | nil =>
    intro c m
    exact ⟨c, m, rfl, le_refl m, Or.inl rfl, fun h => h, by simp⟩
  | cons x xs ih =>
    intro c m
    rw [List.foldl_cons]
    by_cases hx : levDist domain x < m
    · obtain ⟨cf, mf, hfold, hle, hmem, hreal, hmin⟩ := ih x (levDist domain x)
      have hstep : scanStep domain (some (c, m)) x = some (x, levDist domain x) := by
        simp [scanStep, hx]
      refine ⟨cf, mf, by rw [hstep]; exact hfold, by omega, ?_, ?_, ?_⟩
      · rcases hmem with h | h
        · exact Or.inr (h ▸ List.mem_cons_self x xs)
        · exact Or.inr (List.mem_cons_of_mem x h)
      · intro _
        exact hreal rfl
      · intro b hb
        rcases List.mem_cons.mp hb with h | h
        · subst h
          exact le_trans (hreal rfl ▸ hle) (le_refl _)
        · exact hmin b h
    · obtain ⟨cf, mf, hfold, hle, hmem, hreal, hmin⟩ := ih c m
      have hstep : scanStep domain (some (c, m)) x = some (c, m) := by
        simp [scanStep, hx]
      refine ⟨cf, mf, by rw [hstep]; exact hfold, hle, ?_, hreal, ?_⟩
      · rcases hmem with h | h
        · exact Or.inl h
        · exact Or.inr (List.mem_cons_of_mem x h)
      · intro b hb
        rcases List.mem_cons.mp hb with h | h
        · subst h
          exact le_trans hle (not_lt.mp hx)
        · exact hmin b h

/-- The allowlist scan returns the first entry realizing the minimum
Levenshtein distance to the candidate domain. -/
theorem scanAllowlist_spec (domain : String) :
    ∃ c m, scanAllowlist domain = some (c, m) ∧ c ∈ allowlist_domains ∧
      levDist domain c = m ∧ ∀ b ∈ allowlist_domains, m ≤ levDist domain b := by
  obtain ⟨cf, mf, hfold, hle, hmem, hreal, hmin⟩ :=
    scanStep_foldl_spec domain
      ["google.com", "paypal.com", "amazon.com",
       "apple.com", "facebook.com", "twitter.com", "linkedin.com",
       "github.com", "stackoverflow.com", "wikipedia.org", "youtube.com",
       "gmail.com", "outlook.com", "yahoo.com", "hotmail.com",
       "office.com", "live.com", "dropbox.com", "zoom.us"]
      "microsoft.com" (levDist domain "microsoft.com")
  refine ⟨cf, mf, ?_, ?_, hreal rfl, ?_⟩
  · show allowlist_domains.foldl (scanStep domain) none = some (cf, mf)
    rw [show allowlist_domains.foldl (scanStep domain) none =
      (["google.com", "paypal.com", "amazon.com",
        "apple.com", "facebook.com", "twitter.com", "linkedin.com",
        "github.com", "stackoverflow.com", "wikipedia.org", "youtube.com",
        "gmail.com", "outlook.com", "yahoo.com", "hotmail.com",
        "office.com", "live.com", "dropbox.com", "zoom.us"]).foldl
          (scanStep domain) (some ("microsoft.com", levDist domain "microsoft.com")) from rfl]
    exact hfold
  · rcases hmem with h | h
    · exact h ▸ List.mem_cons_self _ _
    · exact List.mem_cons_of_mem _ h
  · intro b hb
    rcases List.mem_cons.mp hb with h | h
    · subst h
      exact hreal rfl ▸ hle
    · exact hmin b h

/-- C4.  The typosquatting check of the link agent: an exact allowlist
member gets penalty `0`; otherwise, with `d` the minimum Levenshtein
distance over the allowlist, `a` the nearest entry, and
`similarity = 1 - d / max(len(domain), len(a))`, the penalty is `0.6` when
`similarity ≥ 0.8 ∧ d ≤ 3`, else `0.4` when `similarity ≥ 0.7 ∧ d ≤ 2`,
else `0.3` when `similarity ≥ 0.6 ∧ d = 1`, else `0`; in particular
`microsft.com` is penalized (`0.6 ≠ 0`) and `unrelated-domain.org` is not.
(The model uses exact rational arithmetic for the float similarity.) -/
theorem claim4_typosquat_policy :
    (∀ domain, domain ∈ allowlist_domains → check_allowlist_similarity domain = 0) ∧
    (∀ domain, domain ∉ allowlist_domains →
      ∃ a d, scanAllowlist domain = some (a, d) ∧ a ∈ allowlist_domains ∧
        levDist domain a = d ∧ (∀ b ∈ allowlist_domains, d ≤ levDist domain b) ∧
        check_allowlist_similarity domain =
          (if 1 - (d : ℚ) / (natMax domain.length a.length : Nat) ≥ 8/10 ∧ d ≤ 3 then 6/10
           else if 1 - (d : ℚ) / (natMax domain.length a.length : Nat) ≥ 7/10 ∧ d ≤ 2 then 4/10
           else if 1 - (d : ℚ) / (natMax domain.length a.length : Nat) ≥ 6/10 ∧ d = 1 then 3/10
           else 0)) ∧
    check_allowlist_similarity "microsft.com" = 6/10 ∧
    check_allowlist_similarity "unrelated-domain.org" = 0 := by
  refine ⟨?_, ?_, ?_, ?_⟩
  · intro domain h
    unfold check_allowlist_similarity
    rw [if_pos h]
  · intro domain h
    obtain ⟨a, d, hscan, hmem, hreal, hmin⟩ := scanAllowlist_spec domain
    refine ⟨a, d, hscan, hmem, hreal, hmin, ?_⟩
    unfold check_allowlist_similarity
    rw [if_neg h, hscan]
  · with_unfolding_all decide
  · with_unfolding_all decide

/-- Witness for C4: an exact allowlist member, and a non-member. -/
theorem claim4_typosquat_policy_witness :
    check_allowlist_similarity "google.com" = 0 ∧
    (∃ a d, scanAllowlist "paypa1.com" = some (a, d) ∧ a ∈ allowlist_domains ∧
      levDist "paypa1.com" a = d ∧
      (∀ b ∈ allowlist_domains, d ≤ levDist "paypa1.com" b) ∧
      check_allowlist_similarity "paypa1.com" =
        (if 1 - (d : ℚ) / (natMax "paypa1.com".length a.length : Nat) ≥ 8/10 ∧ d ≤ 3 then 6/10
         else if 1 - (d : ℚ) / (natMax "paypa1.com".length a.length : Nat) ≥ 7/10 ∧ d ≤ 2 then 4/10
         else if 1 - (d : ℚ) / (natMax "paypa1.com".length a.length : Nat) ≥ 6/10 ∧ d = 1 then 3/10
         else 0)) :=
  ⟨claim4_typosquat_policy.1 "google.com" (by decide),
   claim4_typosquat_policy.2.1 "paypa1.com" (by decide)⟩

/-! ## C7: per-URL aggregation of the link evaluator -/

/-- The effective per-URL score consumed by the aggregation loop: the
analyzer's score on success, `1.0` on a raised exception. -/
def effScore (analyze1 : String → Except String AnalyzedLink) (url : String) : ℚ :=
  match analyze1 url with
  | .ok r => r.score
  | .error _ => 1

/-- The per-URL entry appended to `analyzed_links`: the analyzer's
dictionary on success, the malformed-URL dictionary on a raised exception. -/
def effEntry (analyze1 : String → Except String AnalyzedLink) (url : String) :
    AnalyzedLink :=
  match analyze1 url with
  | .ok r => r
  | .error e => ⟨url, "invalid", 1, ["Malformed URL: " ++ e]⟩

/-- Closed form of the `for url in links` accumulation loop. -/
theorem linkStep_foldl_spec (a1 : String → Except String AnalyzedLink) :
    ∀ (links : List String) (al : List AnalyzedLink) (ts : ℚ) (sc : Nat),
      links.foldl (linkStep a1) (al, ts, sc) =
        (al ++ links.map (effEntry a1),
         ts + ((links.map (effScore a1)).sum),
         sc + (links.filter (fun u => decide (effScore a1 u ≥ 1/2))).length) := by
  intro links
  induction links with
  | nil =>
    intro al ts sc
    simp
  | cons x xs ih =>
    intro al ts sc
    rw [List.foldl_cons]
    rcases hx : a1 x with e | r
    · have hstep : linkStep a1 (al, ts, sc) x =
          (al ++ [⟨x, "invalid", 1, ["Malformed URL: " ++ e]⟩], ts + 1, sc + 1) := by
        simp [linkStep, hx]
      have heff : effEntry a1 x = ⟨x, "invalid", 1, ["Malformed URL: " ++ e]⟩ := by
        simp [effEntry, hx]
      have heffs : effScore a1 x = 1 := by
        simp [effScore, hx]
      have h1 : decide (effScore a1 x ≥ 1/2) = true := by
        rw [heffs]
        norm_num
      rw [hstep, ih]
      refine Prod.ext ?_ (Prod.ext ?_ ?_)
      · simp [heff]
      · show ts + 1 + _ = ts + _
        rw [List.map_cons, List.sum_cons, heffs]
        ring
      · show sc + 1 + _ = sc + _
        rw [List.filter_cons, h1]
        simp [Nat.add_assoc, Nat.add_comm 1]
    · have hstep : linkStep a1 (al, ts, sc) x =
          (al ++ [r], ts + r.score, sc + (if r.score ≥ 1/2 then 1 else 0)) := by
        simp [linkStep, hx]
      have heff : effEntry a1 x = r := by
        simp [effEntry, hx]
      have heffs : effScore a1 x = r.score := by
        simp [effScore, hx]
      rw [hstep, ih]
      refine Prod.ext ?_ (Prod.ext ?_ ?_)
      · simp [heff]
      · show ts + r.score + _ = ts + _
        rw [List.map_cons, List.sum_cons, heffs]
        ring
      · show sc + _ + _ = sc + _
        rw [List.filter_cons, heffs]
        by_cases hr : r.score ≥ 1/2
        · rw [if_pos hr, if_pos (by exact decide_eq_true hr)]
          simp [Nat.add_assoc, Nat.add_comm 1]
        · rw [if_neg hr, if_neg (by simpa using hr)]
          simp [Nat.add_assoc]

theorem ratMin_one_of_le_one (q : ℚ) (h : q ≤ 1) : ratMin 1 q = q := by
  unfold ratMin
  split
  · rename_i h1
    exact le_antisymm h1 h
  · rfl

/-- C7.  For a non-empty URL list, the aggregate link score is the
arithmetic mean of the per-URL scores (a URL whose analysis raised counts
as `1.0`), `suspicious_count` counts the URLs with effective score `≥ 0.5`,
and every failing URL contributes an entry scored exactly `1.0` with a
single malformed-URL reason (counted as suspicious, since `1 ≥ 0.5`),
instead of aborting.  The per-URL analyzer is a parameter (in the source it
performs an external WHOIS lookup); the hypothesis that its successful
scores lie in `[0,1]` reflects the source's `min(1.0, score)` cap. -/
theorem claim7_link_aggregation (a1 : String → Except String AnalyzedLink)
    (links : List String) (hne : links ≠ [])
    (hok : ∀ url r, a1 url = .ok r → 0 ≤ r.score ∧ r.score ≤ 1) :
    (analyze_links a1 links).score =
      ((links.map (effScore a1)).sum) / (links.length : ℚ) ∧
    (analyze_links a1 links).suspicious_count =
      (links.filter (fun u => decide (effScore a1 u ≥ 1/2))).length ∧
    (analyze_links a1 links).total_links = links.length ∧
    (analyze_links a1 links).links = links.map (effEntry a1) ∧
    (∀ url ∈ links, ∀ e, a1 url = .error e →
      (⟨url, "invalid", 1, ["Malformed URL: " ++ e]⟩ : AnalyzedLink) ∈
        (analyze_links a1 links).links ∧
      effScore a1 url = 1 ∧ ((1 : ℚ) ≥ 1/2)) := by
  have hlen : (0 : ℚ) < (links.length : ℚ) := by
    have := List.length_pos.mpr hne
    exact_mod_cast this
  have hbound : ∀ u ∈ links.map (effScore a1), u ≤ 1 := by
    intro u hu
    obtain ⟨url, _, rfl⟩ := List.mem_map.mp hu
    unfold effScore
    rcases hx : a1 url with e | r
    · exact le_refl 1
    · exact (hok url r hx).2
  have hsum : ((links.map (effScore a1)).sum) ≤ (links.length : ℚ) := by
    have := List.sum_le_card_nsmul (links.map (effScore a1)) 1 hbound
    simpa [nsmul_eq_mul] using this
  have hdiv : ((links.map (effScore a1)).sum) / (links.length : ℚ) ≤ 1 :=
    (div_le_one hlen).mpr hsum
  have hfold := linkStep_foldl_spec a1 links [] 0 0
  have hscore : (analyze_links a1 links).score =
      ((links.map (effScore a1)).sum) / (links.length : ℚ) := by
    unfold analyze_links
    rw [if_neg hne, hfold]
    show ratMin 1 ((0 + (links.map (effScore a1)).sum) / (links.length : ℚ)) = _
    rw [zero_add]
    exact ratMin_one_of_le_one _ hdiv
  have hlinks : (analyze_links a1 links).links = links.map (effEntry a1) := by
    unfold analyze_links
    rw [if_neg hne, hfold]
    simp
  refine ⟨hscore, ?_, ?_, hlinks, ?_⟩
  · unfold analyze_links
    rw [if_neg hne, hfold]
    simp
  · unfold analyze_links
    rw [if_neg hne]
  · intro url hurl e he
    refine ⟨?_, ?_, by norm_num⟩
    · rw [hlinks]
      have : effEntry a1 url = ⟨url, "invalid", 1, ["Malformed URL: " ++ e]⟩ := by
        simp [effEntry, he]
      exact this ▸ List.mem_map_of_mem (effEntry a1) hurl
    · simp [effScore, he]

/-- The always-raising analyzer used by the C7 witness. -/
def failingAnalyzer : String → Except String AnalyzedLink := fun _ => .error "boom"

/-- Witness for C7: one URL whose analysis raises. -/
theorem claim7_link_aggregation_witness :
    (analyze_links failingAnalyzer ["u"]).score =
      (((["u"] : List String).map (effScore failingAnalyzer)).sum) /
        ((["u"] : List String).length : ℚ) ∧
    (analyze_links failingAnalyzer ["u"]).suspicious_count =
      ((["u"] : List String).filter
        (fun u => decide (effScore failingAnalyzer u ≥ 1/2))).length :=
  ⟨(claim7_link_aggregation failingAnalyzer ["u"] (by decide)
      (fun url r h => Except.noConfusion h)).1,
   (claim7_link_aggregation failingAnalyzer ["u"] (by decide)
      (fun url r h => Except.noConfusion h)).2.1⟩

/-! ## C5: the verdict priority chain -/

/-- An ASCII single quote, kept out of string literals. -/
def singleQuote : String := String.singleton (Char.ofNat 39)

/-- The identity reason the source emits at line 266 for
`return_domain = a.com`, `sender_domain = b.com`:
`Return-Path domain 'a.com' differs from sender 'b.com'`. -/
def returnPathReason : String :=
  "Return-Path domain " ++ singleQuote ++ "a.com" ++ singleQuote ++
    " differs from sender " ++ singleQuote ++ "b.com" ++ singleQuote

/-- Counterexample to C5 as stated.  The Return-Path mismatch reason is an
identity-check reason (emitted by `_analyze_sender_identity`, line 266), it
has fired, and the total score `0.35` is `≥ 0.3` — yet the verdict is
`normal`, not `identity_mismatch`: `_determine_verdict` does not test
whether an identity reason fired but whether some identity reason's text
contains both the substrings `domain` and `match`, and this reason contains
no `match`. -/
theorem claim5_verdict_counterexample :
    determine_verdict (7/20) [returnPathReason] [] = "normal" ∧
    [returnPathReason] ≠ [] ∧ ((7/20 : ℚ) ≥ 3/10) := by
  refine ⟨?_, ?_, ?_⟩
  · with_unfolding_all decide
  · with_unfolding_all decide
  · with_unfolding_all decide

/-- C5 (amended).  The verdict is computed by one fixed priority chain:
`identity mismatch` when some identity reason whose lowercased text contains
both `domain` and `match` fired and the total score is `≥ 0.3`; otherwise
`suspicious routing` when some routing reason whose lowercased text contains
`hop` or `routing` fired and the score is `≥ 0.4`, or when the score is
`≥ 0.6` regardless of reasons; otherwise `normal` — and the verdict is
always exactly one of these three strings. -/
theorem claim5_verdict_priority_amended (score : ℚ)
    (identity_reasons routing_reasons : List String) :
    (identity_reasons.any isIdentityMismatchReason = true ∧ score ≥ 3/10 →
      determine_verdict score identity_reasons routing_reasons = "identity mismatch") ∧
    (¬ (identity_reasons.any isIdentityMismatchReason = true ∧ score ≥ 3/10) →
      routing_reasons.any isSuspiciousRoutingReason = true ∧ score ≥ 4/10 →
      determine_verdict score identity_reasons routing_reasons = "suspicious routing") ∧
    (¬ (identity_reasons.any isIdentityMismatchReason = true ∧ score ≥ 3/10) →
      ¬ (routing_reasons.any isSuspiciousRoutingReason = true ∧ score ≥ 4/10) →
      score ≥ 6/10 →
      determine_verdict score identity_reasons routing_reasons = "suspicious routing") ∧
    (¬ (identity_reasons.any isIdentityMismatchReason = true ∧ score ≥ 3/10) →
      ¬ (routing_reasons.any isSuspiciousRoutingReason = true ∧ score ≥ 4/10) →
      ¬ (score ≥ 6/10) →
      determine_verdict score identity_reasons routing_reasons = "normal") ∧
    (determine_verdict score identity_reasons routing_reasons = "identity mismatch" ∨
     determine_verdict score identity_reasons routing_reasons = "suspicious routing" ∨
     determine_verdict score identity_reasons routing_reasons = "normal") := by
  simp only [determine_verdict]
  split_ifs with h1 h2 h3
  · exact ⟨fun _ => rfl, fun hn => absurd h1 hn, fun hn _ _ => absurd h1 hn,
      fun hn _ _ => absurd h1 hn, Or.inl rfl⟩
  · exact ⟨fun hp => absurd hp h1, fun _ _ => rfl, fun _ hn _ => absurd h2 hn,
      fun _ hn _ => absurd h2 hn, Or.inr (Or.inl rfl)⟩
  · exact ⟨fun hp => absurd hp h1, fun _ hp => absurd hp h2, fun _ _ _ => rfl,
      fun _ _ hn => absurd h3 hn, Or.inr (Or.inl rfl)⟩
  · exact ⟨fun hp => absurd hp h1, fun _ hp => absurd hp h2, fun _ _ hp => absurd hp h3,
      fun _ _ _ => rfl, Or.inr (Or.inr rfl)⟩

/-- Witness for C5 (amended): a fired domain-match identity reason and a
score above `0.3` give the `identity mismatch` verdict. -/
theorem claim5_verdict_priority_amended_witness :
    determine_verdict (1/2) ["sender domain does not match origin"] [] =
      "identity mismatch" :=
  (claim5_verdict_priority_amended (1/2)
      ["sender domain does not match origin"] []).1
    ⟨by decide, by with_unfolding_all decide⟩

/-! ## C6: chronological order of the reconstructed routing path -/

theorem filterMap_parse_of_nonempty :
    ∀ (l : List String), (∀ s ∈ l, s ≠ "") →
      l.filterMap parse_received_header = l.map mkReceivedHop := by
  intro l
  induction l with
  | nil => intro _; rfl
  | cons x xs ih =>
    intro h
    have hx : x ≠ "" := h x (List.mem_cons_self x xs)
    rw [List.filterMap_cons, List.map_cons]
    rw [show parse_received_header x = some (mkReceivedHop x) from by
      unfold parse_received_header
      rw [if_neg hx]]
    rw [ih (fun s hs => h s (List.mem_cons_of_mem x hs))]

/-- C6.  For a non-empty list of non-empty `Received` lines given in
physical order (most recently added first), the routing analyzer reverses
them: `hops[0]` is the hop parsed from the physically *last* line, and it
is reported as the origin server/IP, while the physically *first* line
yields the final server; every line parses to a hop, so the hop count is
the number of lines. -/
theorem claim6_routing_order (lines : List String) (hne : lines ≠ [])
    (hstr : ∀ s ∈ lines, s ≠ "") :
    parse_received_header (lines.getLast hne) = some (mkReceivedHop (lines.getLast hne)) ∧
    (parse_routing_path (.many lines)).route_hops.head? =
      some (mkReceivedHop (lines.getLast hne)) ∧
    (parse_routing_path (.many lines)).origin_server =
      some (mkReceivedHop (lines.getLast hne)).server ∧
    (parse_routing_path (.many lines)).origin_ip =
      (mkReceivedHop (lines.getLast hne)).ip_address ∧
    (parse_routing_path (.many lines)).total_hops = lines.length ∧
    (parse_routing_path (.many lines)).final_server =
      some (mkReceivedHop (lines.head hne)).server := by
  have hrev : ∀ s ∈ lines.reverse, s ≠ "" := by
    intro s hs
    exact hstr s (List.mem_reverse.mp hs)
  have hhops : (parse_routing_path (.many lines)).route_hops =
      lines.reverse.map mkReceivedHop := by
    show lines.reverse.filterMap parse_received_header = _
    exact filterMap_parse_of_nonempty lines.reverse hrev
  have hhead : (lines.reverse.map mkReceivedHop).head? =
      some (mkReceivedHop (lines.getLast hne)) := by
    rw [List.head?_map, List.head?_reverse, List.getLast?_eq_getLast lines hne]
    rfl
  refine ⟨?_, ?_, ?_, ?_, ?_, ?_⟩
  · unfold parse_received_header
    rw [if_neg (hstr _ (List.getLast_mem hne))]
  · rw [hhops]
    exact hhead
  · show ((parse_routing_path (.many lines)).route_hops.head?).map (fun h => h.server) = _
    rw [hhops, hhead]
    rfl
  · show ((parse_routing_path (.many lines)).route_hops.head?).bind (fun h => h.ip_address) = _
    rw [hhops, hhead]
    rfl
  · show (parse_routing_path (.many lines)).route_hops.length = _
    rw [hhops]
    simp
  · show ((parse_routing_path (.many lines)).route_hops.getLast?).map (fun h => h.server) = _
    rw [hhops, List.getLast?_map, List.getLast?_reverse, List.head?_eq_head hne]
    rfl

/-- Witness for C6: three `Received` lines in physical (newest-first)
order; `hops[0]` and the origin come from the physically last (oldest)
line, the final server from the physically first. -/
theorem claim6_routing_order_witness :
    parse_received_header
        ((["from mx.final.example by final.example.org; Wed, 3 Jan 2024",
           "from relay.mid.example [203.0.113.5] by mx.final.example; Tue, 2 Jan 2024",
           "from sender.origin.example [198.51.100.7] by relay.mid.example; Mon, 1 Jan 2024"
          ] : List String).getLast (by decide)) =
      some (mkReceivedHop
        "from sender.origin.example [198.51.100.7] by relay.mid.example; Mon, 1 Jan 2024") ∧
    (parse_routing_path (.many
        ["from mx.final.example by final.example.org; Wed, 3 Jan 2024",
         "from relay.mid.example [203.0.113.5] by mx.final.example; Tue, 2 Jan 2024",
         "from sender.origin.example [198.51.100.7] by relay.mid.example; Mon, 1 Jan 2024"
        ])).route_hops.head? =
      some (mkReceivedHop
        "from sender.origin.example [198.51.100.7] by relay.mid.example; Mon, 1 Jan 2024") ∧
    (parse_routing_path (.many
        ["from mx.final.example by final.example.org; Wed, 3 Jan 2024",
         "from relay.mid.example [203.0.113.5] by mx.final.example; Tue, 2 Jan 2024",
         "from sender.origin.example [198.51.100.7] by relay.mid.example; Mon, 1 Jan 2024"
        ])).origin_server = some "sender.origin.example" ∧
    (parse_routing_path (.many
        ["from mx.final.example by final.example.org; Wed, 3 Jan 2024",
         "from relay.mid.example [203.0.113.5] by mx.final.example; Tue, 2 Jan 2024",
         "from sender.origin.example [198.51.100.7] by relay.mid.example; Mon, 1 Jan 2024"
        ])).origin_ip = some "198.51.100.7" ∧
    (parse_routing_path (.many
        ["from mx.final.example by final.example.org; Wed, 3 Jan 2024",
         "from relay.mid.example [203.0.113.5] by mx.final.example; Tue, 2 Jan 2024",
         "from sender.origin.example [198.51.100.7] by relay.mid.example; Mon, 1 Jan 2024"
        ])).final_server = some "mx.final.example" := by
  have h := claim6_routing_order
    ["from mx.final.example by final.example.org; Wed, 3 Jan 2024",
     "from relay.mid.example [203.0.113.5] by mx.final.example; Tue, 2 Jan 2024",
     "from sender.origin.example [198.51.100.7] by relay.mid.example; Mon, 1 Jan 2024"]
    (by decide) (by decide)
  obtain ⟨h1, h2, h3, h4, _, h6⟩ := h
  exact ⟨h1, h2, by rw [h3]; decide, by rw [h4]; decide, by rw [h6]; decide⟩

/-! ## C9: history round trip of the behavior store -/

theorem foldl_timestamp_min_le (l : List StoreRow) :
    ∀ a : Int,
      l.foldl (fun m x => if m ≤ x.timestamp then m else x.timestamp) a ≤ a := by
  induction l with
  | nil =>
    intro a
    exact le_refl a
  | cons x xs ih =>
    intro a
    rw [List.foldl_cons]
    by_cases h : a ≤ x.timestamp
    · rw [if_pos h]
      exact ih a
    · rw [if_neg h]
      exact le_trans (ih x.timestamp) (le_of_not_le h)

theorem le_foldl_timestamp_max (l : List StoreRow) :
    ∀ a : Int,
      a ≤ l.foldl (fun m x => if m ≤ x.timestamp then x.timestamp else m) a := by
  induction l with
  | nil =>
    intro a
    exact le_refl a
  | cons x xs ih =>
    intro a
    rw [List.foldl_cons]
    by_cases h : a ≤ x.timestamp
    · rw [if_pos h]
      exact le_trans h (ih x.timestamp)
    · rw [if_neg h]
      exact ih a

/-- C9.  `record()` followed by `get_history()` for the same sender key
always finds a history: its `message_count` is exactly one more than before
the `record()` call (an absent history counting as `0`), and its
`first_seen` is at most its `last_seen` (they are the min and the max of
the recorded timestamps). -/
theorem claim9_history_roundtrip (store : List StoreRow)
    (sender display reply : String) (ts : Int) :
    ∃ h, get_sender_history (record_email store sender display reply ts) sender =
        some h ∧
      h.message_count =
        (match get_sender_history store sender with
         | none => 0
         | some g => g.message_count) + 1 ∧
      h.first_seen ≤ h.last_seen := by
  simp only [get_sender_history, record_email]
  rw [List.filter_append]
  have hrow : List.filter (fun r => decide (r.sender_email = strLower sender))
      [(⟨strLower sender, display, reply, ts⟩ : StoreRow)] =
      [⟨strLower sender, display, reply, ts⟩] := by
    simp
  rw [hrow]
  cases hh : List.filter (fun r => decide (r.sender_email = strLower sender)) store with
  | nil =>
    exact ⟨_, rfl, rfl, le_refl ts⟩
  | cons r rs =>
    exact ⟨_, rfl, by simp,
      le_trans
        (foldl_timestamp_min_le (rs ++ [⟨strLower sender, display, reply, ts⟩]) r.timestamp)
        (le_foldl_timestamp_max (rs ++ [⟨strLower sender, display, reply, ts⟩]) r.timestamp)⟩

end EmailSec
